import Mathlib

/-!
# Release-notes gathering (`pkg/patch/internal/release_notes.go`)

A shallow embedding of `filterReleaseTags`, `ReleaseNoter.relnotes` and
`ReleaseNoter.GetMarkdown`, together with the fragment of Go's `regexp`
that the pattern held in `releaseTagRE` needs.

Go strings are modelled by Lean strings (sequences of Unicode code points,
which is what the Go matcher sees when it decodes a valid UTF-8 string).
The `(string, error)` pair returned by `relnotes` and `GetMarkdown` is kept as
a pair (`err = none` for a `nil` error), so that the string returned next to
an error can be spoken about. A collaborator's `(value, error)` result is an
`Except`: the code never reads a value that comes with a non-nil error.
Every run records the calls it makes on its collaborators.
-/

namespace ReleaseNotes

/-! ## Errors (`fmt.Errorf`, `github.com/pkg/errors`) -/

/-- A Go error value: either an error created with a plain message
(`fmt.Errorf`, or any error produced by a collaborator) or the result of
`errors.Wrapf(cause, msg)`. -/
inductive GoError where
  | errorf (msg : String)
  | wrapf (cause : GoError) (msg : String)
  deriving DecidableEq, Repr

namespace GoError

/-- The `Error()` method: `errors.Wrapf(cause, msg).Error()` is
`msg + ": " + cause.Error()`. -/
def Error : GoError → String
  | errorf msg => msg
  | wrapf cause msg => msg ++ ": " ++ cause.Error

/-- The directly wrapped error of a `Wrapf` layer (`nil` for an unwrapped error). -/
def cause? : GoError → Option GoError
  | errorf _ => none
  | wrapf cause _ => some cause

end GoError

/-! ## The fragment of Go `regexp` used by `releaseTagRE` -/

/-- Syntax trees of the constructs occurring in the pattern: the operators
`OpBeginText`, `OpEndText`, `OpLiteral`, the Perl class `\d`, `OpAnyCharNotNL`,
`OpPlus` and `OpConcat` of `regexp/syntax`. -/
inductive Regexp where
  | beginText
  | endText
  | literal (c : Char)
  | perlDigit
  | anyCharNotNL
  | plus (r : Regexp)
  | concat (r s : Regexp)
  deriving Repr

/-- A matcher position: whether it is the beginning of the text, and the
input that is still unread. -/
abbrev Cursor := Bool × List Char

/-- Consume exactly one character satisfying `ok`. -/
def charStep (ok : Char → Bool) : Cursor → List Cursor
  | (_, x :: xs) => if ok x then [(false, xs)] else []
  | (_, []) => []

/-- One or more repetitions of `step`, returning every reachable cursor.
A repetition that consumed nothing is not repeated again. -/
def plusLoop (step : Cursor → List Cursor) : Nat → Cursor → List Cursor
  | 0, _ => []
  | fuel + 1, p =>
    (step p).flatMap fun q =>
      q :: (if q.2.length < p.2.length then plusLoop step fuel q else [])

namespace Regexp

/-- All cursors reachable by matching `re` starting at the given cursor. -/
def step : Regexp → Cursor → List Cursor
  | beginText => fun p => if p.1 then [p] else []
  | endText => fun p => if p.2.isEmpty then [p] else []
  | literal c => charStep (fun x => x == c)
  | perlDigit => charStep Char.isDigit
  | anyCharNotNL => charStep (fun x => x != '\n')
  | plus r => fun p => plusLoop r.step (p.2.length + 1) p
  | concat r s => fun p => (r.step p).flatMap s.step

/-- The method `(*Regexp).MatchString`: whether the text contains any match
of `re`, a match being tried at every offset of the text. -/
def MatchString (re : Regexp) (s : String) : Bool :=
  (List.range (s.data.length + 1)).any fun i =>
    !(re.step (i == 0, s.data.drop i)).isEmpty

end Regexp

/-- The pattern of line 65, `^v\d+\.\d+.\d+$`, read left to right: the first
dot is escaped (a literal), the second is not (any character but newline). -/
def releaseTagRE : Regexp :=
  .concat .beginText <|
  .concat (.literal 'v') <|
  .concat (.plus .perlDigit) <|
  .concat (.literal '.') <|
  .concat (.plus .perlDigit) <|
  .concat .anyCharNotNL <|
  .concat (.plus .perlDigit) .endText

/-- The function `filterReleaseTags`: the loop appends each matching tag to
`filtered`, which starts empty. -/
def filterReleaseTags (tags : List String) : List String :=
  tags.foldl (fun filtered tag =>
    if releaseTagRE.MatchString tag then filtered ++ [tag] else filtered) []

namespace Regexp

/-- The method `(*Regexp).String`, the source text of the expression, written
back from the tree; a literal is escaped when it is a metacharacter of
`regexp/syntax` (backslash, dot, plus, star, question mark, parentheses, bar,
brackets, braces, caret, dollar). -/
def String : Regexp → String
  | beginText => "^"
  | endText => "$"
  | literal c =>
    if "\\.+*?()|[]\x7b\x7d^$".data.contains c then "\\" ++ c.toString else c.toString
  | perlDigit => "\\d"
  | anyCharNotNL => "."
  | plus r => r.String ++ "+"
  | concat r s => r.String ++ s.String

end Regexp

/-- The function `strconv.Quote` (used by the verb `%q`) on printable ASCII
text: the text between double quotes, with `\` and `"` escaped by `\`. -/
def strconvQuote (s : String) : String :=
  "\"" ++ String.join (s.data.map fun c =>
    if c == '\\' || c == '"' then "\\" ++ c.toString else c.toString) ++ "\""

/-! ## Collaborators -/

/-- The interface `Repo` (lines 78-82). Each method yields either its value
or an error; `relnotes` never reads a value that comes with a non-nil error. -/
structure Repo where
  CurrentBranch : Except GoError String
  TagsForBranch : String → Except GoError (List String)
  Head : Except GoError String

/-- The fields of `noteopts.Options` that `relnotes` writes or reads. -/
structure Options where
  DiscoverMode : String
  GithubOrg : String
  GithubRepo : String
  Pull : Bool
  RepoPath : String
  GithubToken : String
  StartRev : String
  EndSHA : String
  EndRev : String
  deriving DecidableEq, Repr

/-- What `relnotes` uses from the packages `git`, `notes` and `notes/options`,
whose sources are not part of this development: three constants,
`git.OpenRepo`, `(*Options).ValidateAndFinish` (which may update the options
in place), `notes.NewGatherer(ctx, opts).ListReleaseNotes()`,
`notes.CreateDocument` and `notes.RenderMarkdown`. -/
structure NotesPkg (ReleaseNotes History Document : Type) where
  RevisionDiscoveryModeNONE : String
  DefaultGithubOrg : String
  DefaultGithubRepo : String
  OpenRepo : String → Except GoError Repo
  ValidateAndFinish : Options → Except GoError Options
  ListReleaseNotes : Options → Except GoError (ReleaseNotes × History)
  CreateDocument : ReleaseNotes → History → Except GoError Document
  RenderMarkdown : Document → String → String → String → String → Except GoError String

/-- The type `RepoOpener` (line 84): a function value, possibly `nil`. -/
abbrev RepoOpener := Option (String → Except GoError Repo)

/-- The method `RepoOpener.Open` (lines 90-95): a `nil` opener is replaced by
`defaultRepoOpener`, which calls `git.OpenRepo`. -/
def RepoOpener.Open (o : RepoOpener) (defaultRepoOpener : String → Except GoError Repo)
    (path : String) : Except GoError Repo :=
  match o with
  | none => defaultRepoOpener path
  | some f => f path

/-- The struct `ReleaseNoter` (lines 42-51), without the logger mixin and the
`CommandCreator`, which `relnotes` and `GetMarkdown` do not use. -/
structure ReleaseNoter where
  ReleaseToolsDir : String
  K8sDir : String
  GithubToken : String
  RepoOpener : RepoOpener

/-- The calls a run makes on its collaborators, in order. -/
inductive Call where
  | Open (path : String)
  | CurrentBranch
  | TagsForBranch (branch : String)
  | Head
  | ValidateAndFinish (opts : Options)
  | ListReleaseNotes (opts : Options)
  | CreateDocument
  | RenderMarkdown (startRev endRev : String)
  | Stderr (text : String)
  deriving DecidableEq, Repr

/-- The `(string, error)` pair a method returns, with the calls it made. -/
structure Result where
  out : String
  err : Option GoError
  calls : List Call
  deriving DecidableEq, Repr

/-! ## `relnotes` and `GetMarkdown` -/

/-- The text of the error of line 114. -/
def noReleaseTagMsg : String :=
  "could not find a release tag (" ++ strconvQuote releaseTagRE.String ++
    ") on the current branch"

/-- The method `ReleaseNoter.relnotes` (lines 97-164). -/
def relnotes {RN H D : Type} (pkg : NotesPkg RN H D) (r : ReleaseNoter) : Result :=
  match r.RepoOpener.Open pkg.OpenRepo r.K8sDir with
  | .error err => ⟨"", some (.wrapf err "opening repo"), [.Open r.K8sDir]⟩
  | .ok repo =>
  match repo.CurrentBranch with
  | .error err =>
    ⟨"", some (.wrapf err "getting current checked out branch"),
      [.Open r.K8sDir, .CurrentBranch]⟩
  | .ok branch =>
  match repo.TagsForBranch branch with
  | .error err =>
    ⟨"", some (.wrapf err "getting tags on current branch"),
      [.Open r.K8sDir, .CurrentBranch, .TagsForBranch branch]⟩
  | .ok tags =>
  match filterReleaseTags tags with
  | [] =>
    ⟨"", some (.errorf noReleaseTagMsg),
      [.Open r.K8sDir, .CurrentBranch, .TagsForBranch branch]⟩
  | newestPatchRelease :: _ =>
  match repo.Head with
  | .error err =>
    ⟨"", some (.wrapf err "getting head of current branch"),
      [.Open r.K8sDir, .CurrentBranch, .TagsForBranch branch, .Head]⟩
  | .ok headSHA =>
  let opts : Options :=
    { DiscoverMode := pkg.RevisionDiscoveryModeNONE
      GithubOrg := pkg.DefaultGithubOrg
      GithubRepo := pkg.DefaultGithubRepo
      Pull := false
      RepoPath := r.K8sDir
      GithubToken := r.GithubToken
      StartRev := newestPatchRelease
      EndSHA := headSHA
      EndRev := "" }
  let resolved : List Call :=
    [.Open r.K8sDir, .CurrentBranch, .TagsForBranch branch, .Head, .ValidateAndFinish opts]
  match pkg.ValidateAndFinish opts with
  | .error err => ⟨"", some (.wrapf err "finishing opts"), resolved⟩
  | .ok opts =>
  match pkg.ListReleaseNotes opts with
  | .error err =>
    ⟨"", some (.wrapf err "listing release notes"), resolved ++ [.ListReleaseNotes opts]⟩
  | .ok (releaseNotes, history) =>
  match pkg.CreateDocument releaseNotes history with
  | .error err =>
    ⟨"", some (.wrapf err "creating release note document"),
      resolved ++ [.ListReleaseNotes opts, .CreateDocument]⟩
  | .ok doc =>
  match pkg.RenderMarkdown doc "" "" opts.StartRev opts.EndRev with
  | .error err =>
    ⟨"", some (.wrapf err "rendering release notes to markdown"),
      resolved ++ [.ListReleaseNotes opts, .CreateDocument,
        .RenderMarkdown opts.StartRev opts.EndRev]⟩
  | .ok markdown =>
    -- line 162 returns before the `return markdown, nil` of line 163
    ⟨"", some (.errorf "some error"),
      resolved ++ [.ListReleaseNotes opts, .CreateDocument,
        .RenderMarkdown opts.StartRev opts.EndRev,
        .Stderr ("\n\n----\n" ++ markdown ++ "\n----\n\n")]⟩

/-- The body of `GetMarkdown` (lines 55-62) after the call of line 54 has
returned `res`. -/
def GetMarkdownFrom (res : Result) : Result :=
  match res.err with
  | some err => ⟨"", some (.wrapf err "gathering release notes"), res.calls⟩
  | none =>
    let prs := "### some pending PRs"
    let builds := "### find a green build"
    ⟨"\n\n----\n\n".intercalate [res.out, prs, builds], none, res.calls⟩

/-- The method `ReleaseNoter.GetMarkdown` (lines 53-63). -/
def GetMarkdown {RN H D : Type} (pkg : NotesPkg RN H D) (r : ReleaseNoter) : Result :=
  GetMarkdownFrom (relnotes pkg r)

/-! ## The fixture of `TestReleaseNoter` -/

/-- The fake repository of the test's happy path (lines 50-58, 78-81). -/
def happyRepo : Repo where
  CurrentBranch := .ok "release-1.23"
  TagsForBranch := fun _ => .ok ["v1.23.0", "v1.23.1", "v1.23.0-alpha.2"]
  Head := .ok "someHash"

/-- A notes package whose every step succeeds and renders `"some output"`. -/
def happyPkg : NotesPkg Unit Unit Unit where
  RevisionDiscoveryModeNONE := "none"
  DefaultGithubOrg := "kubernetes"
  DefaultGithubRepo := "kubernetes"
  OpenRepo := fun _ => .error (.errorf "not a repository")
  ValidateAndFinish := fun opts => .ok opts
  ListReleaseNotes := fun _ => .ok ((), ())
  CreateDocument := fun _ _ => .ok ()
  RenderMarkdown := fun _ _ _ _ _ => .ok "some output"

/-- The notes package of the happy path, rendering `"N"`. -/
def pkgRenderingN : NotesPkg Unit Unit Unit :=
  { happyPkg with RenderMarkdown := fun _ _ _ _ _ => .ok "N" }

/-- The fake repository of the test with the tags `v1.23-1` and `v1.23.0`. -/
def dashFirstRepo : Repo :=
  { happyRepo with TagsForBranch := fun _ => .ok ["v1.23-1", "v1.23.0"] }

/-- The fake repository of the test with the only tag `v1.23-1`. -/
def dashOnlyRepo : Repo :=
  { happyRepo with TagsForBranch := fun _ => .ok ["v1.23-1"] }

/-- The `ReleaseNoter` of the test (lines 83-92) with the given repository. -/
def testNoter (repo : Repo) : ReleaseNoter where
  ReleaseToolsDir := "/some/dir/release"
  K8sDir := "/some/dir/k8s"
  GithubToken := "some github token"
  RepoOpener := some fun _ => .ok repo

/-! ## Tag forms, in words -/

/-- A run of one or more ASCII digits. -/
def Digits (ds : List Char) : Prop :=
  ds ≠ [] ∧ ∀ c ∈ ds, c.isDigit = true

/-- The release-tag form of the specification: `v`, digits, `.`, digits, `.`,
digits, and nothing else. -/
def StrictReleaseTag (t : String) : Prop :=
  ∃ major minor patch : List Char, Digits major ∧ Digits minor ∧ Digits patch ∧
    t.data = 'v' :: major ++ '.' :: minor ++ '.' :: patch

/-- The form accepted by the compiled pattern: `v`, digits, `.`, digits, one
character other than newline, digits, and nothing else. -/
def LooseReleaseTag (t : String) : Prop :=
  ∃ (major minor patch : List Char) (sep : Char),
    Digits major ∧ Digits minor ∧ Digits patch ∧ sep ≠ '\n' ∧
    t.data = 'v' :: major ++ '.' :: minor ++ sep :: patch

/-! ## The matcher on the pattern -/

theorem mem_charStep {ok : Char → Bool} {p q : Cursor} :
    q ∈ charStep ok p ↔ ∃ x, ok x = true ∧ p.2 = x :: q.2 ∧ q.1 = false := by
  obtain ⟨b, _ | ⟨x, xs⟩⟩ := p
  · simp [charStep]
  · obtain ⟨qb, qs⟩ := q
    by_cases hx : ok x = true
    · simp only [charStep, hx, if_true, List.mem_singleton, Prod.mk.injEq]
      constructor
      · rintro ⟨rfl, rfl⟩
        exact ⟨x, hx, rfl, rfl⟩
      · rintro ⟨y, _, hy, hb⟩
        simp only [List.cons.injEq] at hy
        exact ⟨hb, hy.2.symm⟩
    · simp only [charStep, hx, Bool.false_eq_true, if_false, List.not_mem_nil, false_iff]
      rintro ⟨y, hy, hxy, _⟩
      simp only [List.cons.injEq] at hxy
      exact hx (hxy.1 ▸ hy)

theorem mem_plusLoop_charStep {ok : Char → Bool} :
    ∀ (fuel : Nat) (p q : Cursor), p.2.length < fuel →
      (q ∈ plusLoop (charStep ok) fuel p ↔
        ∃ pre : List Char, pre ≠ [] ∧ (∀ c ∈ pre, ok c = true) ∧
          p.2 = pre ++ q.2 ∧ q.1 = false) := by
  intro fuel
  induction fuel with
  | zero => intro p q h; simp at h
  | succ fuel ih =>
    intro p q hlen
    simp only [plusLoop, List.mem_flatMap, List.mem_cons]
    constructor
    · rintro ⟨m, hm, hq⟩
      obtain ⟨x, hx, hp, hmb⟩ := mem_charStep.1 hm
      have hlt : m.2.length < p.2.length := by rw [hp]; simp
      rcases hq with rfl | hq
      · exact ⟨[x], by simp, by simpa using hx, by simpa using hp, hmb⟩
      · rw [if_pos hlt] at hq
        obtain ⟨pre, _, hall, hm2, hqb⟩ := (ih m q (by omega)).1 hq
        refine ⟨x :: pre, by simp, ?_, ?_, hqb⟩
        · intro c hc
          rcases List.mem_cons.1 hc with rfl | hc
          · exact hx
          · exact hall c hc
        · rw [hp, hm2]; rfl
    · rintro ⟨pre, hne, hall, hp, hqb⟩
      obtain _ | ⟨x, pre⟩ := pre
      · exact absurd rfl hne
      · refine ⟨(false, pre ++ q.2), mem_charStep.2 ⟨x, hall x (by simp), by simpa using hp, rfl⟩, ?_⟩
        have hlt : (pre ++ q.2).length < p.2.length := by rw [hp]; simp
        by_cases hpre : pre = []
        · left
          subst hpre
          exact Prod.ext hqb rfl
        · right
          rw [if_pos hlt]
          refine (ih (false, pre ++ q.2) q (by simp only; omega)).2 ⟨pre, hpre, ?_, rfl, hqb⟩
          intro c hc
          exact hall c (by simp [hc])

theorem mem_step_concat {r s : Regexp} {p q : Cursor} :
    q ∈ (Regexp.concat r s).step p ↔ ∃ m, m ∈ r.step p ∧ q ∈ s.step m := by
  simp [Regexp.step, List.mem_flatMap]

theorem mem_step_beginText {p q : Cursor} :
    q ∈ Regexp.beginText.step p ↔ p.1 = true ∧ q = p := by
  by_cases h : p.1 = true <;> simp [Regexp.step, h]

theorem mem_step_endText {p q : Cursor} :
    q ∈ Regexp.endText.step p ↔ p.2 = [] ∧ q = p := by
  by_cases h : p.2 = [] <;> simp [Regexp.step, h]

theorem mem_step_literal {c : Char} {p q : Cursor} :
    q ∈ (Regexp.literal c).step p ↔ p.2 = c :: q.2 ∧ q.1 = false := by
  simp [Regexp.step, mem_charStep]

theorem mem_step_anyCharNotNL {p q : Cursor} :
    q ∈ Regexp.anyCharNotNL.step p ↔ ∃ x, x ≠ '\n' ∧ p.2 = x :: q.2 ∧ q.1 = false := by
  simp [Regexp.step, mem_charStep]

theorem mem_step_plus_perlDigit {p q : Cursor} :
    q ∈ (Regexp.plus .perlDigit).step p ↔
      ∃ ds, Digits ds ∧ p.2 = ds ++ q.2 ∧ q.1 = false := by
  simp only [Regexp.step, Digits]
  rw [mem_plusLoop_charStep _ _ _ (Nat.lt_succ_self _)]
  constructor
  · rintro ⟨ds, h1, h2, h3, h4⟩
    exact ⟨ds, ⟨h1, h2⟩, h3, h4⟩
  · rintro ⟨ds, ⟨h1, h2⟩, h3, h4⟩
    exact ⟨ds, h1, h2, h3, h4⟩

/-- What the pattern matches from a cursor: only from the beginning of the
text, only the loose form, and only up to the end of the text. -/
theorem mem_step_releaseTagRE {p q : Cursor} :
    q ∈ releaseTagRE.step p ↔
      p.1 = true ∧ q = (false, []) ∧
      ∃ (major minor patch : List Char) (sep : Char),
        Digits major ∧ Digits minor ∧ Digits patch ∧ sep ≠ '\n' ∧
        p.2 = 'v' :: major ++ '.' :: minor ++ sep :: patch := by
  simp only [releaseTagRE, mem_step_concat, mem_step_beginText, mem_step_endText,
    mem_step_literal, mem_step_anyCharNotNL, mem_step_plus_perlDigit]
  constructor
  · rintro ⟨m0, ⟨hb, rfl⟩, m1, ⟨h1, -⟩, m2, ⟨a, ha, h2, -⟩, m3, ⟨h3, -⟩,
      m4, ⟨b, hbd, h4, -⟩, m5, ⟨x, hx, h5, -⟩, m6, ⟨c, hc, h6, h6b⟩, h7, rfl⟩
    refine ⟨hb, Prod.ext h6b h7, a, b, c, x, ha, hbd, hc, hx, ?_⟩
    rw [h1, h2, h3, h4, h5, h6, h7]
    simp
  · rintro ⟨hb, rfl, a, b, c, x, ha, hbd, hc, hx, hp⟩
    refine ⟨p, ⟨hb, rfl⟩, (false, a ++ '.' :: b ++ x :: c), ⟨by simpa using hp, rfl⟩,
      (false, '.' :: b ++ x :: c), ⟨a, ha, by simp, rfl⟩,
      (false, b ++ x :: c), ⟨by simp, rfl⟩,
      (false, x :: c), ⟨b, hbd, by simp, rfl⟩,
      (false, c), ⟨x, hx, rfl, rfl⟩,
      (false, []), ⟨c, hc, by simp, rfl⟩, rfl, rfl⟩

/-- The compiled pattern accepts exactly the tags of the loose form. -/
theorem releaseTagRE_matchString_iff (t : String) :
    releaseTagRE.MatchString t = true ↔ LooseReleaseTag t := by
  unfold Regexp.MatchString LooseReleaseTag
  rw [List.any_eq_true]
  constructor
  · rintro ⟨i, -, hi⟩
    obtain ⟨q, hq⟩ : ∃ q, q ∈ releaseTagRE.step (i == 0, t.data.drop i) := by
      cases hl : releaseTagRE.step (i == 0, t.data.drop i) with
      | nil => simp [hl] at hi
      | cons q _ => exact ⟨q, by simp⟩
    obtain ⟨hb, -, a, b, c, x, ha, hbd, hc, hx, hp⟩ := mem_step_releaseTagRE.1 hq
    have h0 : i = 0 := by simpa using hb
    subst h0
    exact ⟨a, b, c, x, ha, hbd, hc, hx, by simpa using hp⟩
  · rintro ⟨a, b, c, x, ha, hbd, hc, hx, hp⟩
    refine ⟨0, by simp, ?_⟩
    have hq : ((false, []) : Cursor) ∈ releaseTagRE.step ((0 : Nat) == 0, t.data.drop 0) :=
      mem_step_releaseTagRE.2 ⟨rfl, rfl, a, b, c, x, ha, hbd, hc, hx, by simpa using hp⟩
    cases hl : releaseTagRE.step ((0 : Nat) == 0, t.data.drop 0) with
    | nil => rw [hl] at hq; simp at hq
    | cons _ _ => simp

/-- The tree of `releaseTagRE` is the pattern text of line 65. -/
theorem releaseTagRE_String : releaseTagRE.String = "^v\\d+\\.\\d+.\\d+$" := by
  decide

/-! ## The filter is `List.filter` -/

theorem foldl_filter_append (ok : String → Bool) (tags acc : List String) :
    tags.foldl (fun filtered tag => if ok tag then filtered ++ [tag] else filtered) acc =
      acc ++ tags.filter ok := by
  induction tags generalizing acc with
  | nil => simp
  | cons t ts ih =>
    by_cases h : ok t = true
    · simp [List.foldl_cons, ih, h]
    · simp [List.foldl_cons, ih, h]

theorem filterReleaseTags_eq_filter (tags : List String) :
    filterReleaseTags tags = tags.filter fun t => releaseTagRE.MatchString t := by
  unfold filterReleaseTags
  rw [foldl_filter_append]
  rfl

theorem filter_eq_cons_of_find? (ok : String → Bool) (tags : List String) (start : String)
    (h : tags.find? ok = some start) : ∃ rest, tags.filter ok = start :: rest := by
  induction tags with
  | nil => simp at h
  | cons t ts ih =>
    by_cases ht : ok t = true
    · simp only [List.find?_cons, ht, Option.some.injEq] at h
      subst h
      exact ⟨ts.filter ok, by simp [List.filter_cons, ht]⟩
    · simp only [List.find?_cons, ht] at h
      obtain ⟨rest, hrest⟩ := ih h
      exact ⟨rest, by simp [List.filter_cons, ht, hrest]⟩

theorem find?_isSome_of_mem (ok : String → Bool) (tags : List String)
    (h : ∃ t ∈ tags, ok t = true) : ∃ start, tags.find? ok = some start := by
  cases hf : tags.find? ok with
  | some start => exact ⟨start, rfl⟩
  | none =>
    obtain ⟨t, ht, hok⟩ := h
    rw [List.find?_eq_none] at hf
    exact absurd hok (hf t ht)

theorem strictReleaseTag_loose (t : String) (h : StrictReleaseTag t) : LooseReleaseTag t := by
  obtain ⟨a, b, c, ha, hb, hc, ht⟩ := h
  exact ⟨a, b, c, '.', ha, hb, hc, by decide, ht⟩

theorem mem_filterReleaseTags (tags : List String) (t : String) :
    t ∈ filterReleaseTags tags ↔ t ∈ tags ∧ releaseTagRE.MatchString t = true := by
  rw [filterReleaseTags_eq_filter, List.mem_filter]

/-! ## The claims -/

/-- C1 (the code departs from the claim): the claim says a tag is kept iff it
is `v`, digits, `.`, digits, `.`, digits. The three tags named by the claim
behave as it says, but the tag `v1.23-1` is kept by `filterReleaseTags`
although it is not of that form (the second dot of the pattern is
unescaped), so the equivalence of the claim does not hold of the code. -/
theorem C1_releaseTagRE_keeps_a_non_release_tag :
    releaseTagRE.MatchString "v1.23.0" = true ∧
    releaseTagRE.MatchString "v1.23.0-alpha.2" = false ∧
    releaseTagRE.MatchString "V1.23.0" = false ∧
    releaseTagRE.MatchString "v1.23-1" = true ∧
    filterReleaseTags ["v1.23-1"] = ["v1.23-1"] ∧
    ¬ StrictReleaseTag "v1.23-1" ∧
    ¬ ∀ t : String, releaseTagRE.MatchString t = true ↔ StrictReleaseTag t := by
  have hnot : ¬ StrictReleaseTag "v1.23-1" := ?_
  · exact ⟨by decide, by decide, by decide, by decide, by decide, hnot,
      fun hall => hnot ((hall "v1.23-1").1 (by decide))⟩
  rintro ⟨a, b, c, ha, hb, hc, ht⟩
  have hmem : '-' ∈ ("v1.23-1" : String).data := by decide
  rw [ht] at hmem
  simp only [List.mem_cons, List.mem_append, or_assoc] at hmem
  rcases hmem with h | h | h | h | h | h
  · exact absurd h (by decide)
  · exact absurd (ha.2 _ h) (by decide)
  · exact absurd h (by decide)
  · exact absurd (hb.2 _ h) (by decide)
  · exact absurd h (by decide)
  · exact absurd (hc.2 _ h) (by decide)

/-- C10: the compiled pattern accepts a tag iff it is `v`, one or more ASCII
digits, a literal `.`, one or more digits, one character other than newline,
one or more digits, and nothing else; so every tag of the strict form
`v<digits>.<digits>.<digits>` that occurs in a tag list is kept by
`filterReleaseTags`, and so are `v1.23-1`, `v1.2x3` and `v1.234`. -/
theorem C10_releaseTagRE_accepts_exactly_the_loose_form :
    (∀ t : String, releaseTagRE.MatchString t = true ↔ LooseReleaseTag t) ∧
    (∀ (tags : List String) (t : String), t ∈ tags → StrictReleaseTag t →
      t ∈ filterReleaseTags tags) ∧
    filterReleaseTags ["v1.23-1", "v1.2x3", "v1.234"] = ["v1.23-1", "v1.2x3", "v1.234"] := by
  refine ⟨releaseTagRE_matchString_iff, ?_, by decide⟩
  intro tags t ht hs
  exact (mem_filterReleaseTags tags t).2
    ⟨ht, (releaseTagRE_matchString_iff t).2 (strictReleaseTag_loose t hs)⟩

/-- Witness of C10: the strict-form tag `v1.23.0` is kept. -/
theorem C10_releaseTagRE_accepts_exactly_the_loose_form_witness :
    "v1.23.0" ∈ ["v1.23.0-alpha.2", "v1.23.0"] ∧ StrictReleaseTag "v1.23.0" ∧
    "v1.23.0" ∈ filterReleaseTags ["v1.23.0-alpha.2", "v1.23.0"] :=
  have hs : StrictReleaseTag "v1.23.0" :=
    ⟨['1'], ['2', '3'], ['0'], ⟨by decide, by decide⟩, ⟨by decide, by decide⟩,
      ⟨by decide, by decide⟩, by decide⟩
  ⟨by decide, hs,
    C10_releaseTagRE_accepts_exactly_the_loose_form.2.1 _ _ (by decide) hs⟩

/-- C7: `filterReleaseTags` returns exactly the matching tags of its input in
input order: it is the filter of the input by the pattern, hence a sublist of
the input, and every tag occurs in the output as often as in the input if it
matches and not at all otherwise; a tag given twice is returned twice. -/
theorem C7_filterReleaseTags_is_the_matching_subsequence :
    (∀ tags : List String,
      filterReleaseTags tags = tags.filter (fun t => releaseTagRE.MatchString t) ∧
      List.Sublist (filterReleaseTags tags) tags ∧
      ∀ t : String, (filterReleaseTags tags).count t =
        if releaseTagRE.MatchString t = true then tags.count t else 0) ∧
    filterReleaseTags ["v1.23.1", "v1.23.0", "rc", "v1.23.1"] =
      ["v1.23.1", "v1.23.0", "v1.23.1"] := by
  refine ⟨fun tags => ⟨filterReleaseTags_eq_filter tags, ?_, ?_⟩, by decide⟩
  · rw [filterReleaseTags_eq_filter]
    exact List.filter_sublist tags
  · intro t
    rw [filterReleaseTags_eq_filter]
    by_cases h : releaseTagRE.MatchString t = true
    · rw [if_pos h]
      exact List.count_filter (by simpa using h)
    · rw [if_neg h]
      apply List.count_eq_zero_of_not_mem
      simp [List.mem_filter, h]

/-- The join of line 62: had `relnotes` returned `(N, nil)`, the body of
`GetMarkdown` would return `N`, the separator, the pending-PRs heading, the
separator and the green-build heading, in this order, with a nil error. -/
theorem GetMarkdownFrom_of_nil_error (N : String) (calls : List Call) :
    GetMarkdownFrom ⟨N, none, calls⟩ =
      ⟨N ++ "\n\n----\n\n" ++ "### some pending PRs" ++ "\n\n----\n\n" ++
        "### find a green build", none, calls⟩ ∧
    (GetMarkdownFrom ⟨"N", none, calls⟩).out =
      "N\n\n----\n\n### some pending PRs\n\n----\n\n### find a green build" := by
  constructor
  · simp [GetMarkdownFrom, String.intercalate, String.intercalate.go, String.append_assoc]
  · show "\n\n----\n\n".intercalate ["N", "### some pending PRs", "### find a green build"] = _
    decide

/-- What `relnotes` resolves: when the repository opens, the three queries
succeed and some tag is matched by the compiled pattern, the options handed
on have as `StartRev` the first tag, in input order, matched by the compiled
pattern and as `EndSHA` the value of `Head`; the tags of the test give
`["v1.23.0", "v1.23.1"]` and the range `("v1.23.0", "someHash")`. -/
theorem relnotes_hands_first_matched_tag_and_head :
    (∀ {RN H D : Type} (pkg : NotesPkg RN H D) (r : ReleaseNoter) (repo : Repo)
        (branch head : String) (tags : List String),
      r.RepoOpener.Open pkg.OpenRepo r.K8sDir = .ok repo →
      repo.CurrentBranch = .ok branch →
      repo.TagsForBranch branch = .ok tags →
      repo.Head = .ok head →
      (∃ t ∈ tags, releaseTagRE.MatchString t = true) →
      ∃ (start : String) (opts : Options) (later : List Call),
        tags.find? (fun t => releaseTagRE.MatchString t) = some start ∧
        (filterReleaseTags tags).head? = some start ∧
        opts.StartRev = start ∧ opts.EndSHA = head ∧
        opts.DiscoverMode = pkg.RevisionDiscoveryModeNONE ∧
        (relnotes pkg r).calls =
          [.Open r.K8sDir, .CurrentBranch, .TagsForBranch branch, .Head,
            .ValidateAndFinish opts] ++ later) ∧
    filterReleaseTags ["v1.23.0", "v1.23.1", "v1.23.0-alpha.2"] = ["v1.23.0", "v1.23.1"] ∧
    (relnotes happyPkg (testNoter happyRepo)).calls.take 5 =
      [.Open "/some/dir/k8s", .CurrentBranch, .TagsForBranch "release-1.23", .Head,
        .ValidateAndFinish
          { DiscoverMode := "none", GithubOrg := "kubernetes", GithubRepo := "kubernetes",
            Pull := false, RepoPath := "/some/dir/k8s", GithubToken := "some github token",
            StartRev := "v1.23.0", EndSHA := "someHash", EndRev := "" }] := by
  refine ⟨?_, by decide, by decide⟩
  intro RN H D pkg r repo branch head tags hopen hbranch htags hhead hrel
  obtain ⟨start, hfind⟩ := find?_isSome_of_mem _ tags hrel
  obtain ⟨rest, hrest⟩ := filter_eq_cons_of_find? _ tags start hfind
  rw [← filterReleaseTags_eq_filter] at hrest
  refine ⟨start,
    { DiscoverMode := pkg.RevisionDiscoveryModeNONE, GithubOrg := pkg.DefaultGithubOrg,
      GithubRepo := pkg.DefaultGithubRepo, Pull := false, RepoPath := r.K8sDir,
      GithubToken := r.GithubToken, StartRev := start, EndSHA := head, EndRev := "" },
    (relnotes pkg r).calls.drop 5, hfind, by rw [hrest]; rfl, rfl, rfl, rfl, ?_⟩
  · simp only [relnotes, hopen, hbranch, htags, hrest, hhead]
    cases pkg.ValidateAndFinish _ with
    | error e => rfl
    | ok o =>
      simp only
      cases pkg.ListReleaseNotes o with
      | error e => rfl
      | ok n =>
        obtain ⟨rn, h⟩ := n
        simp only
        cases pkg.CreateDocument rn h with
        | error e => rfl
        | ok d =>
          simp only
          cases pkg.RenderMarkdown d "" "" o.StartRev o.EndRev with
          | error e => rfl
          | ok m => rfl

theorem relnotes_err_ne_none {RN H D : Type} (pkg : NotesPkg RN H D) (r : ReleaseNoter) :
    (relnotes pkg r).err ≠ none := by
  simp only [relnotes]
  repeat' split
  all_goals simp

theorem relnotes_out_eq_empty {RN H D : Type} (pkg : NotesPkg RN H D) (r : ReleaseNoter) :
    (relnotes pkg r).out = "" := by
  simp only [relnotes]
  repeat' split
  all_goals rfl

/-- C3 (the code departs from the claim): the claim says that `GetMarkdown`
returns a nil error and the assembled document on the happy path. In the code
`relnotes` returns the error `some error` after rendering, so `GetMarkdown`
never returns a nil error; on the happy path of the test it returns the empty
string and the error `gathering release notes: some error`, after having
rendered and printed the markdown. -/
theorem C3_GetMarkdown_fails_on_the_happy_path :
    (∀ {RN H D : Type} (pkg : NotesPkg RN H D) (r : ReleaseNoter),
      (GetMarkdown pkg r).err ≠ none) ∧
    GetMarkdown happyPkg (testNoter happyRepo) =
      ⟨"", some (.wrapf (.errorf "some error") "gathering release notes"),
        [.Open "/some/dir/k8s", .CurrentBranch, .TagsForBranch "release-1.23", .Head,
          .ValidateAndFinish
            { DiscoverMode := "none", GithubOrg := "kubernetes", GithubRepo := "kubernetes",
              Pull := false, RepoPath := "/some/dir/k8s", GithubToken := "some github token",
              StartRev := "v1.23.0", EndSHA := "someHash", EndRev := "" },
          .ListReleaseNotes
            { DiscoverMode := "none", GithubOrg := "kubernetes", GithubRepo := "kubernetes",
              Pull := false, RepoPath := "/some/dir/k8s", GithubToken := "some github token",
              StartRev := "v1.23.0", EndSHA := "someHash", EndRev := "" },
          .CreateDocument, .RenderMarkdown "v1.23.0" "",
          .Stderr "\n\n----\nsome output\n----\n\n"]⟩ ∧
    ((GetMarkdown happyPkg (testNoter happyRepo)).err.map GoError.Error) =
      some "gathering release notes: some error" := by
  refine ⟨?_, by decide, by decide⟩
  intro RN H D pkg r
  unfold GetMarkdown GetMarkdownFrom
  cases h : (relnotes pkg r).err with
  | none => exact absurd h (relnotes_err_ne_none pkg r)
  | some e => simp

/-- The guard of lines 113-115: when the repository opens, `CurrentBranch`
and `TagsForBranch` succeed and no tag is matched by the compiled pattern,
`relnotes` returns the no-release-tag error with an empty string, and the
calls it made are `Open`, `CurrentBranch` and `TagsForBranch` only. -/
theorem relnotes_no_matched_tag {RN H D : Type} (pkg : NotesPkg RN H D)
    (r : ReleaseNoter) (repo : Repo) (branch : String) (tags : List String)
    (hopen : r.RepoOpener.Open pkg.OpenRepo r.K8sDir = .ok repo)
    (hbranch : repo.CurrentBranch = .ok branch)
    (htags : repo.TagsForBranch branch = .ok tags)
    (hnone : ∀ t ∈ tags, releaseTagRE.MatchString t = false) :
    (relnotes pkg r).err = some (.errorf noReleaseTagMsg) ∧
    noReleaseTagMsg =
      "could not find a release tag (\"^v\\\\d+\\\\.\\\\d+.\\\\d+$\") on the current branch" ∧
    (relnotes pkg r).out = "" ∧
    (relnotes pkg r).calls = [.Open r.K8sDir, .CurrentBranch, .TagsForBranch branch] ∧
    Call.Head ∉ (relnotes pkg r).calls := by
  have hfilter : filterReleaseTags tags = [] := by
    rw [filterReleaseTags_eq_filter, List.filter_eq_nil_iff]
    intro t ht
    simp [hnone t ht]
  have hcalls : (relnotes pkg r).calls =
      [.Open r.K8sDir, .CurrentBranch, .TagsForBranch branch] := by
    simp only [relnotes, hopen, hbranch, htags, hfilter]
  refine ⟨?_, by decide, relnotes_out_eq_empty pkg r, hcalls, ?_⟩
  · simp only [relnotes, hopen, hbranch, htags, hfilter]
  · rw [hcalls]
    simp

/-- C6: when the repository opens and `CurrentBranch` fails with `e`,
`relnotes` returns at once the error `e` wrapped with the context `getting
current checked out branch`, and the calls it made are `Open` and
`CurrentBranch` only: neither `TagsForBranch` nor `Head` is called. -/
theorem C6_CurrentBranch_failure_stops_resolution {RN H D : Type} (pkg : NotesPkg RN H D)
    (r : ReleaseNoter) (repo : Repo) (e : GoError)
    (hopen : r.RepoOpener.Open pkg.OpenRepo r.K8sDir = .ok repo)
    (hfail : repo.CurrentBranch = .error e) :
    (relnotes pkg r).err = some (.wrapf e "getting current checked out branch") ∧
    (relnotes pkg r).out = "" ∧
    (relnotes pkg r).calls = [.Open r.K8sDir, .CurrentBranch] ∧
    (∀ branch, Call.TagsForBranch branch ∉ (relnotes pkg r).calls) ∧
    Call.Head ∉ (relnotes pkg r).calls := by
  have hcalls : (relnotes pkg r).calls = [.Open r.K8sDir, .CurrentBranch] := by
    simp only [relnotes, hopen, hfail]
  refine ⟨?_, relnotes_out_eq_empty pkg r, hcalls, ?_, ?_⟩
  · simp only [relnotes, hopen, hfail]
  · intro branch
    rw [hcalls]
    simp
  · rw [hcalls]
    simp

/-- Witness of C6: the repository of the test with a failing `CurrentBranch`. -/
theorem C6_CurrentBranch_failure_stops_resolution_witness :
    (relnotes happyPkg (testNoter
      { happyRepo with CurrentBranch := .error (.errorf "detached HEAD") })).err =
      some (.wrapf (.errorf "detached HEAD") "getting current checked out branch") ∧
    (relnotes happyPkg (testNoter
      { happyRepo with CurrentBranch := .error (.errorf "detached HEAD") })).calls =
      [.Open "/some/dir/k8s", .CurrentBranch] :=
  have h := C6_CurrentBranch_failure_stops_resolution happyPkg
    (testNoter { happyRepo with CurrentBranch := .error (.errorf "detached HEAD") })
    { happyRepo with CurrentBranch := .error (.errorf "detached HEAD") }
    (.errorf "detached HEAD") rfl rfl
  ⟨h.1, h.2.2.1⟩

/-- C8: when the repository opens and one of `CurrentBranch`, `TagsForBranch`
and `Head` is the first step to fail, with error `e`, `relnotes` returns `e`
wrapped once with the context naming the query: the message of the returned
error is the context, `": "` and the message of `e`, and its cause is `e`. -/
theorem C8_repository_errors_are_wrapped_once {RN H D : Type} (pkg : NotesPkg RN H D)
    (r : ReleaseNoter) (repo : Repo) (e : GoError)
    (hopen : r.RepoOpener.Open pkg.OpenRepo r.K8sDir = .ok repo) :
    (repo.CurrentBranch = .error e →
      (relnotes pkg r).err = some (.wrapf e "getting current checked out branch") ∧
      (relnotes pkg r).err.map GoError.Error =
        some ("getting current checked out branch" ++ ": " ++ e.Error) ∧
      (relnotes pkg r).err.bind GoError.cause? = some e) ∧
    (∀ branch, repo.CurrentBranch = .ok branch → repo.TagsForBranch branch = .error e →
      (relnotes pkg r).err = some (.wrapf e "getting tags on current branch") ∧
      (relnotes pkg r).err.map GoError.Error =
        some ("getting tags on current branch" ++ ": " ++ e.Error) ∧
      (relnotes pkg r).err.bind GoError.cause? = some e) ∧
    (∀ branch tags, repo.CurrentBranch = .ok branch → repo.TagsForBranch branch = .ok tags →
      (∃ t ∈ tags, releaseTagRE.MatchString t = true) → repo.Head = .error e →
      (relnotes pkg r).err = some (.wrapf e "getting head of current branch") ∧
      (relnotes pkg r).err.map GoError.Error =
        some ("getting head of current branch" ++ ": " ++ e.Error) ∧
      (relnotes pkg r).err.bind GoError.cause? = some e) := by
  refine ⟨?_, ?_, ?_⟩
  · intro hfail
    have h : (relnotes pkg r).err = some (.wrapf e "getting current checked out branch") := by
      simp only [relnotes, hopen, hfail]
    exact ⟨h, by rw [h]; rfl, by rw [h]; rfl⟩
  · intro branch hbranch hfail
    have h : (relnotes pkg r).err = some (.wrapf e "getting tags on current branch") := by
      simp only [relnotes, hopen, hbranch, hfail]
    exact ⟨h, by rw [h]; rfl, by rw [h]; rfl⟩
  · intro branch tags hbranch htags hrel hfail
    obtain ⟨start, hfind⟩ := find?_isSome_of_mem _ tags hrel
    obtain ⟨rest, hrest⟩ := filter_eq_cons_of_find? _ tags start hfind
    rw [← filterReleaseTags_eq_filter] at hrest
    have h : (relnotes pkg r).err = some (.wrapf e "getting head of current branch") := by
      simp only [relnotes, hopen, hbranch, htags, hrest, hfail]
    exact ⟨h, by rw [h]; rfl, by rw [h]; rfl⟩

/-- Witness of C8: the repository of the test with each query failing in turn. -/
theorem C8_repository_errors_are_wrapped_once_witness :
    (relnotes happyPkg (testNoter
      { happyRepo with CurrentBranch := .error (.errorf "boom") })).err.map GoError.Error =
      some "getting current checked out branch: boom" ∧
    (relnotes happyPkg (testNoter
      { happyRepo with TagsForBranch := fun _ => .error (.errorf "boom") })).err.map
        GoError.Error = some "getting tags on current branch: boom" ∧
    (relnotes happyPkg (testNoter
      { happyRepo with Head := .error (.errorf "boom") })).err.map GoError.Error =
      some "getting head of current branch: boom" :=
  ⟨((C8_repository_errors_are_wrapped_once happyPkg
      (testNoter { happyRepo with CurrentBranch := .error (.errorf "boom") })
      { happyRepo with CurrentBranch := .error (.errorf "boom") }
      (.errorf "boom") rfl).1 rfl).2.1,
   ((C8_repository_errors_are_wrapped_once happyPkg
      (testNoter { happyRepo with TagsForBranch := fun _ => .error (.errorf "boom") })
      { happyRepo with TagsForBranch := fun _ => .error (.errorf "boom") }
      (.errorf "boom") rfl).2.1 "release-1.23" rfl rfl).2.1,
   ((C8_repository_errors_are_wrapped_once happyPkg
      (testNoter { happyRepo with Head := .error (.errorf "boom") })
      { happyRepo with Head := .error (.errorf "boom") }
      (.errorf "boom") rfl).2.2 "release-1.23" ["v1.23.0", "v1.23.1", "v1.23.0-alpha.2"]
      rfl rfl ⟨"v1.23.0", by decide, by decide⟩ rfl).2.1⟩

/-- C9: whenever `relnotes` or `GetMarkdown` returns a non-nil error, the
string returned with it is empty, whatever the collaborators do and whatever
`relnotes` hands to the body of `GetMarkdown`; this includes the run in which
the markdown has been rendered before the error is returned. -/
theorem C9_no_output_with_an_error {RN H D : Type} (pkg : NotesPkg RN H D)
    (r : ReleaseNoter) :
    ((relnotes pkg r).err ≠ none → (relnotes pkg r).out = "") ∧
    ((GetMarkdown pkg r).err ≠ none → (GetMarkdown pkg r).out = "") ∧
    (∀ res : Result, (GetMarkdownFrom res).err ≠ none → (GetMarkdownFrom res).out = "") := by
  have hfrom : ∀ res : Result, (GetMarkdownFrom res).err ≠ none →
      (GetMarkdownFrom res).out = "" := by
    intro res h
    unfold GetMarkdownFrom at h ⊢
    cases hres : res.err with
    | none => rw [hres] at h; exact absurd rfl h
    | some e => rfl
  exact ⟨fun _ => relnotes_out_eq_empty pkg r, hfrom (relnotes pkg r), hfrom⟩

/-- Witness of C9: on the happy path of the test the markdown `some output`
is rendered and printed, an error is returned, and the string is empty. -/
theorem C9_no_output_with_an_error_witness :
    Call.Stderr "\n\n----\nsome output\n----\n\n" ∈
      (GetMarkdown happyPkg (testNoter happyRepo)).calls ∧
    (GetMarkdown happyPkg (testNoter happyRepo)).err ≠ none ∧
    (relnotes happyPkg (testNoter happyRepo)).out = "" ∧
    (GetMarkdown happyPkg (testNoter happyRepo)).out = "" :=
  ⟨by decide, by decide,
    (C9_no_output_with_an_error happyPkg (testNoter happyRepo)).1 (by decide),
    (C9_no_output_with_an_error happyPkg (testNoter happyRepo)).2.1 (by decide)⟩

/-- The tag `v1.23-1` is not of the form `v`, digits, `.`, digits, `.`, digits. -/
theorem not_strictReleaseTag_dash : ¬ StrictReleaseTag "v1.23-1" := by
  rintro ⟨a, b, c, ha, hb, hc, ht⟩
  have hmem : '-' ∈ ("v1.23-1" : String).data := by decide
  rw [ht] at hmem
  simp only [List.mem_cons, List.mem_append, or_assoc] at hmem
  rcases hmem with h | h | h | h | h | h
  · exact absurd h (by decide)
  · exact absurd (ha.2 _ h) (by decide)
  · exact absurd h (by decide)
  · exact absurd (hb.2 _ h) (by decide)
  · exact absurd h (by decide)
  · exact absurd (hc.2 _ h) (by decide)

/-- The tag `v1.23.0` is of the form `v`, digits, `.`, digits, `.`, digits. -/
theorem strictReleaseTag_v1_23_0 : StrictReleaseTag "v1.23.0" :=
  ⟨['1'], ['2', '3'], ['0'], ⟨by decide, by decide⟩, ⟨by decide, by decide⟩,
    ⟨by decide, by decide⟩, by decide⟩

/-- C2 (the code departs from the claim): the claim says that the range
starts at the first tag, in input order, of the form `v`, digits, `.`,
digits, `.`, digits. For the tags of the test the code does so: the filtered
list is `["v1.23.0", "v1.23.1"]` and the range `("v1.23.0", "someHash")`. For
the tags `["v1.23-1", "v1.23.0"]`, whose first release tag is `v1.23.0`, the
code keeps both and hands on the range `("v1.23-1", "someHash")`: its start
is not a release tag. -/
theorem C2_range_starts_at_a_non_release_tag :
    filterReleaseTags ["v1.23.0", "v1.23.1", "v1.23.0-alpha.2"] = ["v1.23.0", "v1.23.1"] ∧
    (relnotes happyPkg (testNoter happyRepo)).calls.take 5 =
      [.Open "/some/dir/k8s", .CurrentBranch, .TagsForBranch "release-1.23", .Head,
        .ValidateAndFinish
          { DiscoverMode := "none", GithubOrg := "kubernetes", GithubRepo := "kubernetes",
            Pull := false, RepoPath := "/some/dir/k8s", GithubToken := "some github token",
            StartRev := "v1.23.0", EndSHA := "someHash", EndRev := "" }] ∧
    ¬ StrictReleaseTag "v1.23-1" ∧ StrictReleaseTag "v1.23.0" ∧
    dashFirstRepo.TagsForBranch "release-1.23" = .ok ["v1.23-1", "v1.23.0"] ∧
    filterReleaseTags ["v1.23-1", "v1.23.0"] = ["v1.23-1", "v1.23.0"] ∧
    (relnotes happyPkg (testNoter dashFirstRepo)).calls.take 5 =
      [.Open "/some/dir/k8s", .CurrentBranch, .TagsForBranch "release-1.23", .Head,
        .ValidateAndFinish
          { DiscoverMode := "none", GithubOrg := "kubernetes", GithubRepo := "kubernetes",
            Pull := false, RepoPath := "/some/dir/k8s", GithubToken := "some github token",
            StartRev := "v1.23-1", EndSHA := "someHash", EndRev := "" }] :=
  ⟨by decide, by decide, not_strictReleaseTag_dash, strictReleaseTag_v1_23_0, rfl,
    by decide, by decide⟩

/-- C5 (the code departs from the claim): the claim says that a tag list
without a tag of the form `v`, digits, `.`, digits, `.`, digits makes
resolution fail with the no-release-tag error, `Head` not being called. For
the empty tag list the code does so. For the tag list `["v1.23-1"]`, which
holds no release tag, the code keeps the tag, calls `Head`, hands on the
range `("v1.23-1", "someHash")` and returns another error than the
no-release-tag error. -/
theorem C5_Head_called_without_a_release_tag :
    (relnotes happyPkg (testNoter
      { happyRepo with TagsForBranch := fun _ => .ok [] })) =
      ⟨"", some (.errorf noReleaseTagMsg),
        [.Open "/some/dir/k8s", .CurrentBranch, .TagsForBranch "release-1.23"]⟩ ∧
    ¬ StrictReleaseTag "v1.23-1" ∧
    dashOnlyRepo.TagsForBranch "release-1.23" = .ok ["v1.23-1"] ∧
    filterReleaseTags ["v1.23-1"] = ["v1.23-1"] ∧
    Call.Head ∈ (relnotes happyPkg (testNoter dashOnlyRepo)).calls ∧
    (relnotes happyPkg (testNoter dashOnlyRepo)).calls.take 5 =
      [.Open "/some/dir/k8s", .CurrentBranch, .TagsForBranch "release-1.23", .Head,
        .ValidateAndFinish
          { DiscoverMode := "none", GithubOrg := "kubernetes", GithubRepo := "kubernetes",
            Pull := false, RepoPath := "/some/dir/k8s", GithubToken := "some github token",
            StartRev := "v1.23-1", EndSHA := "someHash", EndRev := "" }] ∧
    (relnotes happyPkg (testNoter dashOnlyRepo)).err ≠ some (.errorf noReleaseTagMsg) ∧
    (relnotes happyPkg (testNoter
      { dashOnlyRepo with Head := .error (.errorf "boom") })) =
      ⟨"", some (.wrapf (.errorf "boom") "getting head of current branch"),
        [.Open "/some/dir/k8s", .CurrentBranch, .TagsForBranch "release-1.23", .Head]⟩ :=
  ⟨by decide, not_strictReleaseTag_dash, rfl, by decide, by decide, by decide, by decide,
    by decide⟩

/-- C4 (the code departs from the claim): the claim says that `GetMarkdown`
joins the notes body `N`, the pending-PRs heading and the green-build heading
with the separator. The join is written so on line 62, but it is never
reached: `relnotes` returns the error of line 162 after rendering, so
`GetMarkdown` returns the empty string with an error for every input; when
the notes body `"N"` has been rendered, it returns `""`, not the document
`"N\n\n----\n\n### some pending PRs\n\n----\n\n### find a green build"`. -/
theorem C4_GetMarkdown_never_assembles_the_document :
    (∀ {RN H D : Type} (pkg : NotesPkg RN H D) (r : ReleaseNoter),
      (GetMarkdown pkg r).out = "" ∧ (GetMarkdown pkg r).err ≠ none) ∧
    Call.Stderr "\n\n----\nN\n----\n\n" ∈
      (GetMarkdown pkgRenderingN (testNoter happyRepo)).calls ∧
    (GetMarkdown pkgRenderingN (testNoter happyRepo)).out = "" ∧
    (GetMarkdown pkgRenderingN (testNoter happyRepo)).err =
      some (.wrapf (.errorf "some error") "gathering release notes") ∧
    (GetMarkdown pkgRenderingN (testNoter happyRepo)).out ≠
      "N\n\n----\n\n### some pending PRs\n\n----\n\n### find a green build" ∧
    (∀ calls : List Call, GetMarkdownFrom ⟨"N", none, calls⟩ =
      ⟨"N\n\n----\n\n### some pending PRs\n\n----\n\n### find a green build",
        none, calls⟩) := by
  refine ⟨?_, by decide, by decide, by decide, by decide, ?_⟩
  · intro RN H D pkg r
    have herr := relnotes_err_ne_none pkg r
    unfold GetMarkdown GetMarkdownFrom
    cases h : (relnotes pkg r).err with
    | none => exact absurd h herr
    | some e => simp
  · intro calls
    have h := (GetMarkdownFrom_of_nil_error "N" calls).1
    rw [h]
    have hs : "N" ++ "\n\n----\n\n" ++ "### some pending PRs" ++ "\n\n----\n\n" ++
        "### find a green build" =
        "N\n\n----\n\n### some pending PRs\n\n----\n\n### find a green build" := by decide
    rw [hs]

end ReleaseNotes
